import Mathlib

/-
Verification of the RavenScans Aidoku source (src/sources/ravenscans/src/lib.rs).

The HTML document tree is embedded shallowly: a node records whether it is a
tag, its attribute list, its trimmed-to-be inner text, and the (document-order)
match lists returned by each CSS query the extractor may run against it.  The
extraction functions below are direct transcriptions of the Rust functions of
the same names; imperative push loops become folds over an explicit step.
-/

namespace RavenScans

/-- A queryable HTML node.  `tagged` is whether `as_tag()` succeeds, `attrs`
the attribute list, `innerText` the raw inner text, and `queries` maps each
CSS selector string to the node list `query_selector` yields on this node. -/
inductive HNode : Type where
  | mk (tagged : Bool) (attrs : List (String × String)) (innerText : String)
       (queries : List (String × List HNode)) : HNode

def HNode.tagged : HNode → Bool
  | .mk t _ _ _ => t

def HNode.attrs : HNode → List (String × String)
  | .mk _ a _ _ => a

def HNode.innerText : HNode → String
  | .mk _ _ s _ => s

def HNode.queries : HNode → List (String × List HNode)
  | .mk _ _ _ q => q

/-- `node.as_tag()` from the Rust side: succeeds exactly on tag nodes. -/
def asTag (n : HNode) : Option HNode :=
  if n.tagged then some n else none

/-- `attributes().get(name).and_then(|a| a.get(0))`: first value of the
attribute, absent when the attribute is missing. -/
def getAttr (n : HNode) (name : String) : Option String :=
  n.attrs.lookup name

/-- `query_selector(sel)` collapsed to its observable behaviour: the
document-order list of matches for the selector, empty when none. -/
def queryAll (n : HNode) (s : String) : List HNode :=
  (n.queries.lookup s).getD []

/-- Rust `str::trim`: drop leading and trailing whitespace. -/
def trimChars (s : String) : String :=
  String.mk (((s.toList.dropWhile Char.isWhitespace).reverse.dropWhile Char.isWhitespace).reverse)

/-- `fn text(node) = node.inner_text().trim().to_string()`. -/
def text (n : HNode) : String :=
  trimChars n.innerText

def BASE_URL : String := "https://ravenscans.com"

/-- Rust `str::starts_with`, as a list-prefix test. -/
def strStartsWith (s p : String) : Bool :=
  p.toList.isPrefixOf s.toList

/-- Infix test over character lists: the needle is a prefix of some suffix. -/
def isInfixOfChars : List Char → List Char → Bool
  | needle, [] => needle.isEmpty
  | needle, c :: rest => needle.isPrefixOf (c :: rest) || isInfixOfChars needle rest

/-- Rust `str::contains`, as a list-infix test. -/
def strContains (s sub : String) : Bool :=
  isInfixOfChars sub.toList s.toList

/-- `fn abs(href)`: prefix with the site origin unless the href starts with
"http". -/
def abs (href : String) : String :=
  if strStartsWith href ("http") then href else BASE_URL ++ href

namespace sel

def LIST_ITEM : String := "div.page-item-detail, div.col-6.col-md-3 div.item, div.bsx"

def TITLE : String := "h3 a, .post-title a, .tt"

def COVER : String := "img"

def HREF : String := "a"

def MANGA_META : String := "div.post-content, .infox"

def SUMMARY : String := ".summary__content, .entry-content, .desc"

def GENRES : String := ".genres a, .wd-full .mgen a"

def STATUS : String := ".post-status .summary-content, .imptdt:contains(Status) i, .tsinfo .imptdt:nth-child(2) i"

def CHAPTER_LIST : String := "li.wp-manga-chapter, ul.main .lch a, .cl li a, .eplister ul li a"

def CHAPTER_DATE : String := "span.chapter-release-date, .chapter-time, .right i"

def PAGE_IMAGE : String := "div.reading-content img, .entry-content img, .read-content img"

end sel

inductive MangaStatus : Type where
  | Unknown
  | Ongoing
  | Completed
  deriving Repr, BEq, DecidableEq

inductive MangaContentRating : Type where
  | Safe
  | Suggestive
  | Nsfw
  deriving Repr, BEq, DecidableEq

inductive MangaViewer : Type where
  | Default
  | Rtl
  | Ltr
  | Vertical
  | Scroll
  deriving Repr, BEq, DecidableEq

structure Manga : Type where
  id : String
  cover : String
  title : String
  author : String
  artist : String
  description : String
  url : String
  categories : List String
  status : MangaStatus
  nsfw : MangaContentRating
  viewer : MangaViewer
  deriving Repr, DecidableEq

structure MangaPageResult : Type where
  manga : List Manga
  hasMore : Bool
  deriving Repr, DecidableEq

/-- `date_updated` is `f64` on the host side; the source only ever supplies
`None`, so no floating-point arithmetic is modelled. -/
structure Chapter : Type where
  id : String
  title : String
  volume : String
  chapter : String
  url : String
  dateUpdated : Option Float
  scanlator : String
  lang : String
  deriving Repr

/-- `index` is `i32` on the host side; the loop counts up from 0, so `Nat`
is used (overflow is unreachable for any document the host can supply). -/
structure Page : Type where
  index : Nat
  url : String
  base64 : String
  text : String
  deriving Repr, DecidableEq

/-- Rust `str::to_lowercase`, character by character. -/
def strToLower (s : String) : String :=
  String.mk (s.toList.map Char.toLower)

/-- `fn map_status`: lower-case, then substring tests. -/
def map_status (s : String) : MangaStatus :=
  let s := strToLower s
  if strContains s ("ongoing") then MangaStatus.Ongoing
  else if strContains s ("completed") || strContains s ("complete") then MangaStatus.Completed
  else MangaStatus.Unknown

/-- `fn extract_cover`: first `img` match, then the first present of
`data-src`, `src`, `data-lazy-src`, in the source's order. -/
def extract_cover (node : HNode) : Option String :=
  match (queryAll node sel.COVER).head? with
  | none => none
  | some img =>
    match asTag img with
    | none => none
    | some tag =>
      match getAttr tag ("data-src") with
      | some v => some v
      | none =>
        match getAttr tag ("src") with
        | some v => some v
        | none =>
          match getAttr tag ("data-lazy-src") with
          | some v => some v
          | none => none

/-- Body of the listing loops in `get_manga_list` / `get_search_results`:
title via the title selector and `text`, link via the anchor selector's
`href`, skip when either is empty, otherwise a summary record with fixed
placeholder metadata. -/
def mangaOfItem (item : HNode) : Option Manga :=
  let title := (((queryAll item sel.TITLE).head?).map text).getD ("")
  let href := (((queryAll item sel.HREF).head?).bind
      (fun n => (asTag n).bind (fun t => getAttr t ("href")))).getD ("")
  if title.isEmpty || href.isEmpty then none
  else
    some
      { id := href
        cover := (extract_cover item).getD ("")
        title := title
        author := ""
        artist := ""
        description := ""
        url := href
        categories := []
        status := MangaStatus.Unknown
        nsfw := MangaContentRating.Nsfw
        viewer := MangaViewer.Scroll }

/-- One iteration of a `Vec::push` loop over an optional per-item record. -/
def pushStep {α β : Type} (f : α → Option β) (acc : List β) (x : α) : List β :=
  match f x with
  | none => acc
  | some y => acc ++ [y]

/-- `fn get_manga_list`, from the fetched document onward. -/
def get_manga_list (dom : HNode) : MangaPageResult :=
  { manga := (queryAll dom sel.LIST_ITEM).foldl (pushStep mangaOfItem) []
    hasMore := true }

/-- `fn get_search_results`, from the fetched document onward (its item loop
is textually the same as `get_manga_list`'s). -/
def get_search_results (dom : HNode) : MangaPageResult :=
  { manga := (queryAll dom sel.LIST_ITEM).foldl (pushStep mangaOfItem) []
    hasMore := true }

/-- The chapter loop's link extraction: `as_tag()` then the `href`
attribute. -/
def nodeHref (a : HNode) : Option String :=
  (asTag a).bind (fun t => getAttr t ("href"))

/-- Body of the `get_chapter_list` loop: skip a node without an href,
otherwise a chapter whose id and url are the raw href; the date text is read
but discarded, `date_updated` is kept `None`. -/
def chapterOfNode (a : HNode) : Option Chapter :=
  match nodeHref a with
  | none => none
  | some href =>
    let _date_str := ((queryAll a sel.CHAPTER_DATE).head?).map text
    some
      { id := href
        title := text a
        volume := ""
        chapter := ""
        url := href
        dateUpdated := none
        scanlator := ""
        lang := "en" }

/-- `fn get_chapter_list`, from the fetched document onward. -/
def get_chapter_list (dom : HNode) : List Chapter :=
  (queryAll dom sel.CHAPTER_LIST).foldl (pushStep chapterOfNode) []

/-- The page loop's URL extraction: `as_tag()`, then `data-src` or else
`src`. -/
def pageURL (img : HNode) : Option String :=
  (asTag img).bind (fun t => (getAttr t ("data-src")).orElse (fun _ => getAttr t ("src")))

/-- One iteration of the `get_page_list` loop: state is the pages pushed so
far plus the running index, bumped only when a URL was found. -/
def pageStep (st : List Page × Nat) (img : HNode) : List Page × Nat :=
  match pageURL img with
  | none => st
  | some u => (st.1 ++ [{ index := st.2, url := u, base64 := "", text := "" }], st.2 + 1)

/-- `fn get_page_list`, from the fetched document onward. -/
def get_page_list (dom : HNode) : List Page :=
  ((queryAll dom sel.PAGE_IMAGE).foldl pageStep ([], 0)).1

/-- The page loop in recursive form, from an arbitrary starting index
(proof device relating `get_page_list` to its per-node behaviour). -/
def pagesAux : List HNode → Nat → List Page
  | [], _ => []
  | img :: rest, i =>
    match pageURL img with
    | none => pagesAux rest i
    | some u => { index := i, url := u, base64 := "", text := "" } :: pagesAux rest (i + 1)

/-- `fn get_manga_details`, from the fetched document onward; `id` is the
fetch target the host passed in. -/
def get_manga_details (dom : HNode) (id : String) : Manga :=
  let info := (queryAll dom sel.MANGA_META).head?
  let title := (((queryAll dom ("h1, .entry-title, .post-title h1")).head?).map text).getD ("Unknown")
  let description := ((info.bind (fun n => (queryAll n sel.SUMMARY).head?)).map text).getD ("")
  let genres :=
    match info with
    | none => []
    | some meta =>
      (queryAll meta sel.GENRES).foldl
        (fun acc g => let t := text g; if t.isEmpty then acc else acc ++ [t]) []
  let status := ((info.bind (fun n => (queryAll n sel.STATUS).head?)).map
      (fun n => map_status (text n))).getD MangaStatus.Unknown
  let cover := (((queryAll dom ("meta[property=\x27og:image\x27]")).head?).bind
      (fun m => (asTag m).bind (fun t => getAttr t ("content")))).getD ("")
  { id := id
    cover := cover
    title := title
    author := ""
    artist := ""
    description := description
    url := id
    categories := genres
    status := status
    nsfw := MangaContentRating.Nsfw
    viewer := MangaViewer.Scroll }

/-- Outcome of a Rust computation that may `panic` (via `expect`). -/
inductive Outcome (α : Type) : Type where
  | panics (msg : String)
  | ok (v : α)

/-- The host error type, opaque here: the source never constructs a value. -/
inductive AidokuError : Type where
  | message (s : String)

/-- The external collaborators: HTTP transport (`None` = network/HTTP
failure), HTML parsing (`None` = parse failure) and the host's URL
encoder. -/
structure Env : Type where
  fetch : String → Option String
  parse : String → Option HNode
  urlencode : String → String

/-- `fn get_dom`: `http_get(..).expect("http get failed")`, then
`tl::parse(..).expect("parse failed")`, then `Ok(dom)`.  Both failures
panic; the `Err` branch of the returned `Result` is syntactically dead. -/
def get_dom (env : Env) (url : String) : Outcome (Except AidokuError HNode) :=
  match env.fetch url with
  | none => Outcome.panics ("http get failed")
  | some html =>
    match env.parse html with
    | none => Outcome.panics ("parse failed")
    | some dom => Outcome.ok (Except.ok dom)

/-- Whether an outcome is a returned `Err` value (as opposed to a panic or a
returned `Ok`). -/
def isErrResult : Outcome (Except AidokuError HNode) → Bool
  | Outcome.ok (Except.error _) => true
  | _ => false

/-- An extraction entry point: fetch and parse via `get_dom`, propagate with
`?`, then run the pure extractor on the document. -/
def run_extract {α : Type} (env : Env) (url : String) (extract : HNode → α) :
    Outcome (Except AidokuError α) :=
  match get_dom env url with
  | Outcome.panics m => Outcome.panics m
  | Outcome.ok (Except.error e) => Outcome.ok (Except.error e)
  | Outcome.ok (Except.ok dom) => Outcome.ok (Except.ok (extract dom))

/-- `if page < 1 { 1 } else { page }`. -/
def clampPage (page : Int) : Int :=
  if page < 1 then 1 else page

/-- The listing URL built in `get_manga_list`. -/
def manga_list_url (listing : String) (page : Int) : String :=
  (if listing == ("Popular")
    then BASE_URL ++ ("/?s=&post_type=wp-manga&m_orderby=trending")
    else BASE_URL ++ ("/?s=&post_type=wp-manga&m_orderby=latest"))
  ++ ("&page=") ++ toString (clampPage page)

/-- The search URL built in `get_search_results`. -/
def search_url (env : Env) (query : String) (page : Int) : String :=
  BASE_URL ++ ("/?s=") ++ env.urlencode query ++ ("&post_type=wp-manga&page=")
  ++ toString (clampPage page)

/-- `has_more = true` whenever the call returns an `Ok` page (vacuous on
panics and propagated errors). -/
def hasMoreOk (o : Outcome (Except AidokuError MangaPageResult)) : Prop :=
  match o with
  | Outcome.ok (Except.ok r) => r.hasMore = true
  | _ => True

/-- A scheme per URI syntax: an alphabetic character, then scheme
characters, then a colon.  (Spec-side notion of an absolute URL, used to
compare against the code's `starts_with("http")` test.) -/
def isSchemeChar (c : Char) : Bool :=
  c.isAlphanum || c == '+' || c == '-' || c == '.'

def hasSchemeAux : List Char → Bool
  | [] => false
  | c :: rest => if c == ':' then true else isSchemeChar c && hasSchemeAux rest

def hasScheme (s : String) : Bool :=
  match s.toList with
  | [] => false
  | c :: rest => c.isAlpha && hasSchemeAux rest

/-- First present non-empty value among a list of optional attribute
values. -/
def firstNonEmpty : List (Option String) → Option String
  | [] => none
  | none :: rest => firstNonEmpty rest
  | some v :: rest => if v.isEmpty then firstNonEmpty rest else some v

/-- The cover picker as the spec words it: lazy-load attribute (`data-src`),
then the lazy-load alternate (`data-lazy-src`), then the standard `src`,
first present non-empty value.  Stated only to compare with
`extract_cover`. -/
def pickImageURL_spec (node : HNode) : Option String :=
  match (queryAll node sel.COVER).head? with
  | none => none
  | some img =>
    match asTag img with
    | none => none
    | some tag =>
      firstNonEmpty
        [getAttr tag ("data-src"), getAttr tag ("data-lazy-src"), getAttr tag ("src")]

/- Concrete documents used by the counterexamples and concrete evaluations. -/

/-- A listing item whose anchor href is relative. -/
def exTitleNode : HNode := HNode.mk true [] ("Foo") []

def exAnchorNode : HNode := HNode.mk true [("href", "/manga/foo")] ("") []

def exListItem : HNode :=
  HNode.mk true [] ("") [(sel.TITLE, [exTitleNode]), (sel.HREF, [exAnchorNode])]

def exListDoc : HNode := HNode.mk true [] ("") [(sel.LIST_ITEM, [exListItem])]

/-- An image tag with an empty lazy-load value, a non-empty alternate and a
non-empty eager source. -/
def exCoverImg : HNode :=
  HNode.mk true [("data-src", ""), ("data-lazy-src", "lazy.jpg"), ("src", "eager.jpg")] ("") []

def exCoverNode : HNode := HNode.mk true [] ("") [(sel.COVER, [exCoverImg])]

/-- A chapter node whose href attribute is present but empty. -/
def exEmptyHrefChapterNode : HNode := HNode.mk true [("href", "")] ("Chapter X") []

def exEmptyHrefChapterDoc : HNode :=
  HNode.mk true [] ("") [(sel.CHAPTER_LIST, [exEmptyHrefChapterNode])]

/-- A chapter node that does carry a nested date match. -/
def exDateNode : HNode := HNode.mk true [] (" Jan 1, 2024 ") []

def exChapterNode : HNode :=
  HNode.mk true [("href", "/ch/1")] ("Chapter 1") [(sel.CHAPTER_DATE, [exDateNode])]

def exChapterDoc : HNode := HNode.mk true [] ("") [(sel.CHAPTER_LIST, [exChapterNode])]

/-- A detail document carrying a status, a genre and a summary. -/
def exStatusNode : HNode := HNode.mk true [] ("Ongoing") []

def exGenreNode : HNode := HNode.mk true [] ("Action") []

def exSummaryNode : HNode := HNode.mk true [] ("Great") []

def exInfoNode : HNode :=
  HNode.mk true [] ("")
    [(sel.STATUS, [exStatusNode]), (sel.GENRES, [exGenreNode]), (sel.SUMMARY, [exSummaryNode])]

def exDetailDoc : HNode := HNode.mk true [] ("") [(sel.MANGA_META, [exInfoNode])]

/-- An environment whose transport always fails. -/
def envNoNet : Env :=
  { fetch := fun _ => none, parse := fun _ => none, urlencode := fun s => s }

/-- An environment that fetches but never parses. -/
def envBadParse : Env :=
  { fetch := fun _ => some (""), parse := fun _ => none, urlencode := fun s => s }

/- ------------------------------------------------------------------ -/
/- Theorems.                                                          -/
/- ------------------------------------------------------------------ -/

/-- A push loop over an optional per-item record is a `filterMap`. -/
theorem foldl_pushStep_eq {α β : Type} (f : α → Option β) (xs : List α) (acc : List β) :
    xs.foldl (pushStep f) acc = acc ++ xs.filterMap f := by
  induction xs generalizing acc with
  | nil => simp
  | cons x xs ih =>
    cases h : f x with
    | none => simp [List.foldl_cons, pushStep, h, ih]
    | some y => simp [List.foldl_cons, pushStep, h, ih]

/-- The length of a `filterMap` counts the items the function keeps. -/
theorem length_filterMap_countP {α β : Type} (f : α → Option β) (xs : List α) :
    (xs.filterMap f).length = xs.countP (fun a => (f a).isSome) := by
  induction xs with
  | nil => rfl
  | cons x xs ih =>
    cases h : f x with
    | none => simp [h, ih, List.countP_cons]
    | some y => simp [h, ih, List.countP_cons]

/-- Every record a `filterMap` emits satisfies any predicate its producing
function guarantees. -/
theorem all_filterMap {α β : Type} {f : α → Option β} {p : β → Bool}
    (H : ∀ a b, f a = some b → p b = true) (xs : List α) :
    ((xs.filterMap f).all p) = true := by
  rw [List.all_eq_true]
  intro b hb
  rw [List.mem_filterMap] at hb
  obtain ⟨a, _, ha⟩ := hb
  exact H a b ha

/-- The manga list the listing extractor returns, as a `filterMap`. -/
theorem get_manga_list_manga (dom : HNode) :
    (get_manga_list dom).manga = (queryAll dom sel.LIST_ITEM).filterMap mangaOfItem := by
  simpa [get_manga_list] using foldl_pushStep_eq mangaOfItem (queryAll dom sel.LIST_ITEM) []

/-- The manga list the search extractor returns, as a `filterMap`. -/
theorem get_search_results_manga (dom : HNode) :
    (get_search_results dom).manga = (queryAll dom sel.LIST_ITEM).filterMap mangaOfItem := by
  simpa [get_search_results] using foldl_pushStep_eq mangaOfItem (queryAll dom sel.LIST_ITEM) []

/-- The chapter list, as a `filterMap`. -/
theorem get_chapter_list_eq (dom : HNode) :
    get_chapter_list dom = (queryAll dom sel.CHAPTER_LIST).filterMap chapterOfNode := by
  simpa [get_chapter_list] using foldl_pushStep_eq chapterOfNode (queryAll dom sel.CHAPTER_LIST) []

/-- Every summary record the listing loop emits has a non-empty title, a
non-empty raw-href identifier equal to its url, and fixed placeholder
metadata. -/
theorem mangaOfItem_fields {item : HNode} {m : Manga} (h : mangaOfItem item = some m) :
    m.title.isEmpty = false ∧ m.id.isEmpty = false ∧ m.url = m.id ∧
    m.author = "" ∧ m.artist = "" ∧ m.description = "" ∧ m.categories = [] ∧
    m.status = MangaStatus.Unknown ∧ m.nsfw = MangaContentRating.Nsfw ∧
    m.viewer = MangaViewer.Scroll := by
  simp only [mangaOfItem] at h
  split at h
  · exact absurd h (by simp)
  · next hcond =>
    rw [Option.some_inj] at h
    subst h
    simp only [Bool.or_eq_true, not_or, Bool.not_eq_true] at hcond
    exact ⟨hcond.1, hcond.2, rfl, rfl, rfl, rfl, rfl, rfl, rfl, rfl⟩

/-- Every chapter record carries the raw href as both id and url, and an
absent date. -/
theorem chapterOfNode_fields {a : HNode} {c : Chapter} (h : chapterOfNode a = some c) :
    nodeHref a = some c.id ∧ c.url = c.id ∧ c.dateUpdated = none ∧
    c.volume = "" ∧ c.chapter = "" ∧ c.scanlator = "" ∧ c.lang = "en" := by
  cases hh : nodeHref a with
  | none => simp [chapterOfNode, hh] at h
  | some href =>
    simp only [chapterOfNode, hh] at h
    rw [Option.some_inj] at h
    subst h
    exact ⟨rfl, rfl, rfl, rfl, rfl, rfl, rfl⟩

/-- The ids of the chapters a node list yields are exactly the hrefs of the
nodes that have one, in order. -/
theorem map_id_filterMap_chapter (xs : List HNode) :
    (xs.filterMap chapterOfNode).map Chapter.id = xs.filterMap nodeHref := by
  induction xs with
  | nil => rfl
  | cons a xs ih =>
    cases hh : nodeHref a with
    | none => simp [List.filterMap_cons, chapterOfNode, hh, ih]
    | some href => simp [List.filterMap_cons, chapterOfNode, hh, ih]

/-- Unfolding the page loop from any accumulator and starting index. -/
theorem foldl_pageStep_eq (xs : List HNode) (acc : List Page) (i : Nat) :
    (xs.foldl pageStep (acc, i)).1 = acc ++ pagesAux xs i := by
  induction xs generalizing acc i with
  | nil => simp [pagesAux]
  | cons x xs ih =>
    cases h : pageURL x with
    | none => simp [List.foldl_cons, pageStep, pagesAux, h, ih]
    | some u => simp [List.foldl_cons, pageStep, pagesAux, h, ih]

/-- Page indices from start `i` are `i, i+1, …` with no gaps. -/
theorem pagesAux_indices (xs : List HNode) (i : Nat) :
    (pagesAux xs i).map Page.index = List.range' i (pagesAux xs i).length := by
  induction xs generalizing i with
  | nil => simp [pagesAux]
  | cons x xs ih =>
    cases h : pageURL x with
    | none => simp [pagesAux, h, ih]
    | some u => simp [pagesAux, h, ih, List.range'_succ]

/-- The page loop keeps exactly the nodes with a recognized source. -/
theorem pagesAux_length (xs : List HNode) (i : Nat) :
    (pagesAux xs i).length = xs.countP (fun n => (pageURL n).isSome) := by
  induction xs generalizing i with
  | nil => rfl
  | cons x xs ih =>
    cases h : pageURL x with
    | none => simp [pagesAux, h, ih, List.countP_cons]
    | some u => simp [pagesAux, h, ih, List.countP_cons]

/-- The site origin prefix makes any string start with "http". -/
theorem strStartsWith_base (t : String) :
    strStartsWith (BASE_URL ++ t) ("http") = true := by
  have h1 : ("http").toList <+: (BASE_URL).toList :=
    List.isPrefixOf_iff_prefix.1 (by decide)
  have h2 : (BASE_URL).toList <+: (BASE_URL ++ t).toList := by
    show (BASE_URL).data <+: (BASE_URL ++ t).data
    rw [String.data_append]
    exact List.prefix_append _ _
  simpa [strStartsWith] using List.isPrefixOf_iff_prefix.2 (h1.trans h2)

/-- Claim C1, counterexample: a listing item whose anchor href is the
relative "/manga/foo" is emitted with that raw string as its identifier;
the identifier is not in absolute-URL form (it does not start with "http"
and differs from its origin-prefixed resolution), because `abs` is never
applied.  Moreover a chapter node whose href attribute is present but
empty is emitted as a SubUnit whose identifier is the empty string: the
chapter loop checks only href presence, not emptiness, so the non-empty
guarantee also fails for sub-units. -/
theorem manga_id_not_absolute_cx :
    (get_manga_list exListDoc).manga.map Manga.id = ["/manga/foo"] ∧
    strStartsWith ("/manga/foo") ("http") = false ∧
    abs ("/manga/foo") = ("https://ravenscans.com/manga/foo") ∧
    ¬(("/manga/foo") = abs ("/manga/foo")) ∧
    (get_chapter_list exEmptyHrefChapterDoc).map Chapter.id = [""] ∧
    ¬((("" : String)).isEmpty = false) := by
  exact ⟨by decide, by decide, by decide, by decide, by decide, by decide⟩

/-- Claim C1 as amended: every WorkSummary the listing and search loops
emit has a non-empty identifier, equal to its url field; chapter ids are
the raw href attribute values of the matched nodes, in order, with no
origin-prefix resolution applied anywhere — and, per the counterexample,
a present-but-empty href makes a SubUnit identifier empty, so the
non-empty guarantee holds for works only. -/
theorem identifiers_raw_href (dom : HNode) :
    ((get_manga_list dom).manga.all
        (fun m => !m.id.isEmpty && (m.url == m.id))) = true ∧
    ((get_search_results dom).manga.all
        (fun m => !m.id.isEmpty && (m.url == m.id))) = true ∧
    (get_chapter_list dom).map Chapter.id
        = (queryAll dom sel.CHAPTER_LIST).filterMap nodeHref ∧
    ((get_chapter_list dom).all (fun c => c.url == c.id)) = true := by
  have Hm : ∀ item m, mangaOfItem item = some m →
      (!m.id.isEmpty && (m.url == m.id)) = true := by
    intro item m h
    obtain ⟨-, h2, h3, -⟩ := mangaOfItem_fields h
    simp [h2, h3]
  have Hc : ∀ a c, chapterOfNode a = some c → (c.url == c.id) = true := by
    intro a c h
    obtain ⟨-, h2, -⟩ := chapterOfNode_fields h
    simp [h2]
  refine ⟨?_, ?_, ?_, ?_⟩
  · rw [get_manga_list_manga]; exact all_filterMap Hm _
  · rw [get_search_results_manga]; exact all_filterMap Hm _
  · rw [get_chapter_list_eq]; exact map_id_filterMap_chapter _
  · rw [get_chapter_list_eq]; exact all_filterMap Hc _

/-- Claim C2, counterexample: on an image tag with `data-src=""` (present
but empty), `data-lazy-src="lazy.jpg"` and `src="eager.jpg"`, the code
returns the empty `data-src` value, while the spec's wording (lazy-load,
then lazy-load-alternate, then src, first present non-empty value) picks
"lazy.jpg": the claimed priority order and the non-emptiness filter are
both wrong. -/
theorem extract_cover_order_cx :
    extract_cover exCoverNode = some ("") ∧
    pickImageURL_spec exCoverNode = some ("lazy.jpg") ∧
    ¬(extract_cover exCoverNode = pickImageURL_spec exCoverNode) := by
  exact ⟨rfl, rfl, by decide⟩

/-- Claim C2 as amended: `extract_cover` inspects the first `img` match
(when it is a tag) and returns the first *present* value — empty or not —
among `data-src`, then `src`, then `data-lazy-src`, in that order; it is
absent only when there is no image tag or none of the three attributes is
present. -/
theorem extract_cover_chain (node : HNode) :
    extract_cover node =
      ((queryAll node sel.COVER).head?).bind (fun img =>
        (asTag img).bind (fun t =>
          ((getAttr t ("data-src")).orElse (fun _ => getAttr t ("src"))).orElse
            (fun _ => getAttr t ("data-lazy-src")))) := by
  cases h1 : (queryAll node sel.COVER).head? with
  | none => simp [extract_cover, h1]
  | some img =>
    cases h2 : asTag img with
    | none => simp [extract_cover, h1, h2]
    | some t =>
      cases h3 : getAttr t ("data-src") with
      | some v => simp [extract_cover, h1, h2, h3]
      | none =>
        cases h4 : getAttr t ("src") with
        | some v => simp [extract_cover, h1, h2, h3, h4]
        | none =>
          cases h5 : getAttr t ("data-lazy-src") with
          | some v => simp [extract_cover, h1, h2, h3, h4, h5]
          | none => simp [extract_cover, h1, h2, h3, h4, h5]

/-- Claim C3, counterexample: a chapter node with a nested date match whose
trimmed text is non-empty still yields `date_updated = None` — the date is
not the trimmed text of the match, so absence does not coincide with "no
match". -/
theorem chapter_date_discarded_cx :
    ((queryAll exChapterNode sel.CHAPTER_DATE).head?).isSome = true ∧
    text exDateNode = ("Jan 1, 2024") ∧
    (get_chapter_list exChapterDoc).map Chapter.id = ["/ch/1"] ∧
    (get_chapter_list exChapterDoc).map Chapter.dateUpdated = [none] := by
  exact ⟨rfl, rfl, rfl, rfl⟩

/-- Claim C3 as amended: the chapter loop reads the date sub-selector text
but discards it; `date_updated` is `None` for every emitted chapter,
whether or not a date match exists. -/
theorem chapter_date_always_none (dom : HNode) :
    ((get_chapter_list dom).all (fun c => c.dateUpdated.isNone)) = true := by
  have Hc : ∀ a c, chapterOfNode a = some c → c.dateUpdated.isNone = true := by
    intro a c h
    obtain ⟨-, -, h3, -⟩ := chapterOfNode_fields h
    simp [h3]
  rw [get_chapter_list_eq]
  exact all_filterMap Hc _

/-- Claim C4: both listing and search return `has_more = true` for every
document, and every successful run of either entry point (any transport
environment, listing kind, query and page number) does as well. -/
theorem has_more_always_true (dom : HNode) (env : Env) (listing query : String) (page : Int) :
    (get_manga_list dom).hasMore = true ∧
    (get_search_results dom).hasMore = true ∧
    hasMoreOk (run_extract env (manga_list_url listing page) get_manga_list) ∧
    hasMoreOk (run_extract env (search_url env query page) get_search_results) := by
  refine ⟨rfl, rfl, ?_, ?_⟩
  · unfold hasMoreOk run_extract
    cases get_dom env (manga_list_url listing page) with
    | panics m => trivial
    | ok e =>
      cases e with
      | error er => trivial
      | ok d => exact rfl
  · unfold hasMoreOk run_extract
    cases get_dom env (search_url env query page) with
    | panics m => trivial
    | ok e =>
      cases e with
      | error er => trivial
      | ok d => exact rfl

/-- Claim C5: neither the listing loop nor the search loop ever emits a
summary with an empty title or an empty identifier — an item with an empty
extracted title or link contributes nothing, and extraction is total (no
error value exists to raise). -/
theorem listing_skips_empty (dom : HNode) :
    ((get_manga_list dom).manga.all
        (fun m => !m.title.isEmpty && !m.id.isEmpty)) = true ∧
    ((get_search_results dom).manga.all
        (fun m => !m.title.isEmpty && !m.id.isEmpty)) = true := by
  have Hm : ∀ item m, mangaOfItem item = some m →
      (!m.title.isEmpty && !m.id.isEmpty) = true := by
    intro item m h
    obtain ⟨h1, h2, -⟩ := mangaOfItem_fields h
    simp [h1, h2]
  constructor
  · rw [get_manga_list_manga]; exact all_filterMap Hm _
  · rw [get_search_results_manga]; exact all_filterMap Hm _

/-- Claim C6: the page extractor's indices are `0, 1, …` with no gaps, and
its length is the number of matched image nodes that are tags carrying
`data-src` or `src`; a node with neither is skipped without bumping the
index. -/
theorem page_indices_contiguous (dom : HNode) :
    (get_page_list dom).map Page.index = List.range (get_page_list dom).length ∧
    (get_page_list dom).length
      = (queryAll dom sel.PAGE_IMAGE).countP (fun n => (pageURL n).isSome) := by
  have e : get_page_list dom = pagesAux (queryAll dom sel.PAGE_IMAGE) 0 := by
    simpa [get_page_list] using foldl_pageStep_eq (queryAll dom sel.PAGE_IMAGE) [] 0
  refine ⟨?_, ?_⟩
  · rw [e, List.range_eq_range']
    exact pagesAux_indices _ 0
  · rw [e]
    exact pagesAux_length _ 0

/-- Claim C7: the chapter extractor emits, in exact document order, one
record per matched node that has an href (its id being that href); nodes
lacking an href are the only ones removed, and nothing is re-sorted. -/
theorem chapter_order_preserved (dom : HNode) :
    (get_chapter_list dom).map Chapter.id
        = (queryAll dom sel.CHAPTER_LIST).filterMap nodeHref ∧
    (get_chapter_list dom).length
        = (queryAll dom sel.CHAPTER_LIST).countP (fun n => (nodeHref n).isSome) := by
  constructor
  · rw [get_chapter_list_eq]
    exact map_id_filterMap_chapter _
  · rw [get_chapter_list_eq]
    have h2 := congrArg List.length (map_id_filterMap_chapter (queryAll dom sel.CHAPTER_LIST))
    rw [List.length_map] at h2
    rw [h2]
    exact length_filterMap_countP nodeHref _

/-- Claim C8, counterexample: "ftp://example.com/x" has a scheme yet `abs`
does not return it unchanged — the code tests `starts_with("http")`, not
"has a scheme"; conversely "httpfoo" has no scheme yet is returned
unchanged rather than origin-prefixed. -/
theorem abs_scheme_cx :
    hasScheme ("ftp://example.com/x") = true ∧
    abs ("ftp://example.com/x") = ("https://ravenscans.comftp://example.com/x") ∧
    ¬(abs ("ftp://example.com/x") = ("ftp://example.com/x")) ∧
    hasScheme ("httpfoo") = false ∧
    abs ("httpfoo") = ("httpfoo") := by
  exact ⟨by decide, by decide, by decide, by decide, by decide⟩

/-- Claim C8 as amended: `abs` is idempotent on every input, and it returns
an href unchanged exactly when the href starts with "http", otherwise
prefixing it with the fixed site origin. -/
theorem abs_idempotent (s : String) :
    abs (abs s) = abs s ∧
    abs s = (if strStartsWith s ("http") then s else BASE_URL ++ s) := by
  constructor
  · by_cases hs : strStartsWith s ("http") = true
    · simp [abs, hs]
    · simp only [Bool.not_eq_true] at hs
      simp [abs, hs, strStartsWith_base]
  · rfl

/-- Claim C9, counterexample: with a failing transport, `get_dom` panics
with "http get failed" (and with a failing parser, "parse failed") rather
than returning a `TransportError`/`ParseError` value: `isErrResult` is
false because the outcome is a panic, not an `Err`. -/
theorem get_dom_panics_cx :
    get_dom envNoNet BASE_URL = Outcome.panics ("http get failed") ∧
    get_dom envBadParse BASE_URL = Outcome.panics ("parse failed") ∧
    isErrResult (get_dom envNoNet BASE_URL) = false := by
  exact ⟨rfl, rfl, rfl⟩

/-- Claim C9 as amended: a fetch or parse failure makes the call panic
(abort) with a fixed message instead of returning an error value; the
`Err` branch of the `Result` is never produced, and no record — partial or
otherwise — is returned on failure. -/
theorem get_dom_never_err (env : Env) (url : String) :
    isErrResult (get_dom env url) = false ∧
    (get_dom env url = Outcome.panics ("http get failed") ∨
     get_dom env url = Outcome.panics ("parse failed") ∨
     ∃ dom, get_dom env url = Outcome.ok (Except.ok dom)) := by
  cases hf : env.fetch url with
  | none =>
    refine ⟨?_, Or.inl ?_⟩ <;> simp [get_dom, isErrResult, hf]
  | some html =>
    cases hp : env.parse html with
    | none =>
      refine ⟨?_, Or.inr (Or.inl ?_)⟩ <;> simp [get_dom, isErrResult, hf, hp]
    | some dom =>
      refine ⟨?_, Or.inr (Or.inr ⟨dom, ?_⟩)⟩ <;> simp [get_dom, isErrResult, hf, hp]

/-- Claim C10: every record the listing and search loops emit carries the
fixed placeholder metadata (Unknown status, empty author/artist/
description/categories, Nsfw rating, Scroll viewer), while the detail
extractor does populate status, description and categories from the
document (witnessed on a concrete detail document). -/
theorem listing_placeholder_metadata (dom : HNode) :
    ((get_manga_list dom).manga.all
        (fun m => (m.status == MangaStatus.Unknown) && m.author.isEmpty &&
          m.artist.isEmpty && m.description.isEmpty && m.categories.isEmpty &&
          (m.nsfw == MangaContentRating.Nsfw) && (m.viewer == MangaViewer.Scroll))) = true ∧
    ((get_search_results dom).manga.all
        (fun m => (m.status == MangaStatus.Unknown) && m.author.isEmpty &&
          m.artist.isEmpty && m.description.isEmpty && m.categories.isEmpty &&
          (m.nsfw == MangaContentRating.Nsfw) && (m.viewer == MangaViewer.Scroll))) = true ∧
    (get_manga_details exDetailDoc BASE_URL).status = MangaStatus.Ongoing ∧
    (get_manga_details exDetailDoc BASE_URL).description = ("Great") ∧
    (get_manga_details exDetailDoc BASE_URL).categories = [("Action")] := by
  have Hm : ∀ item m, mangaOfItem item = some m →
      ((m.status == MangaStatus.Unknown) && m.author.isEmpty &&
        m.artist.isEmpty && m.description.isEmpty && m.categories.isEmpty &&
        (m.nsfw == MangaContentRating.Nsfw) && (m.viewer == MangaViewer.Scroll)) = true := by
    intro item m h
    obtain ⟨-, -, -, h4, h5, h6, h7, h8, h9, h10⟩ := mangaOfItem_fields h
    simp only [h4, h5, h6, h7, h8, h9, h10]
    decide
  refine ⟨?_, ?_, rfl, rfl, rfl⟩
  · rw [get_manga_list_manga]; exact all_filterMap Hm _
  · rw [get_search_results_manga]; exact all_filterMap Hm _

end RavenScans
